import Mathlib

set_option maxRecDepth 2000

/-!
Verification development for the bdget personal finance tracker.

The definitions below are a shallow embedding of the application's core:
the free-text command interpreter, the CSV statement importer and the
goal-projection engine found in `src/App.tsx` and
`src/components/Settings.tsx`.  JavaScript numbers are modelled as exact
rationals (`ℚ`), calendar dates as explicit year/month/day triples, and
the external library collaborators (date-fns locale parsing of explicit
date patterns, `Intl` currency formatting, the regex captures that are
plain library calls) as function parameters.  Every embedded function is
executable so the theorems can be checked on concrete inputs.
-/

namespace Bdget

/-! ## Characters and strings -/

/-- The character class matched by JavaScript's `\s` (which already
contains U+00A0 and U+202F), used by the separator-stripping replaces in
`App.tsx` and `Settings.tsx`. -/
def jsWhitespace (c : Char) : Bool :=
  c = ' ' || c = '\t' || c = '\n' || c = '\r' ||
  c.toNat = 0x0B || c.toNat = 0x0C || c.toNat = 0xA0 || c.toNat = 0x1680 ||
  (0x2000 ≤ c.toNat && c.toNat ≤ 0x200A) ||
  c.toNat = 0x2028 || c.toNat = 0x2029 || c.toNat = 0x202F ||
  c.toNat = 0x205F || c.toNat = 0x3000 || c.toNat = 0xFEFF

/-- `command.toLowerCase()` (the commands in the claims are ASCII, where
`Char.toLower` agrees with JavaScript's `toLowerCase`). -/
def jsToLower (s : String) : String :=
  String.mk (s.toList.map Char.toLower)

/-- Does `l` start with `p`? (character-list version) -/
def startsWithL : List Char → List Char → Bool
  | _, [] => true
  | [], _ :: _ => false
  | a :: as, b :: bs => a = b && startsWithL as bs

/-- Does `hay` contain `pat` as a contiguous substring?  Embeds
JavaScript's `String.prototype.includes`. -/
def containsL : List Char → List Char → Bool
  | [], pat => pat.isEmpty
  | h :: t, pat => startsWithL (h :: t) pat || containsL t pat

/-- `lowerCommand.includes(pat)`. -/
def containsStr (hay pat : String) : Bool :=
  containsL hay.toList pat.toList

/-- `String.prototype.trim()`. -/
def trimJs (s : String) : String :=
  String.mk (((s.toList.dropWhile jsWhitespace).reverse.dropWhile jsWhitespace).reverse)

/-- Value of a list of decimal digit characters. -/
def digitsToNat (l : List Char) : Nat :=
  l.foldl (fun a c => 10 * a + (c.toNat - 48)) 0

/-- JavaScript's `parseFloat`: skip leading whitespace, optional sign,
a digit run, an optional `.` fraction and an optional exponent; the parse
is a prefix parse (trailing garbage is ignored) and yields `none` (NaN)
when no mantissa digit was found.  Values are modelled as exact
rationals. -/
def parseFloatQ (s : String) : Option ℚ :=
  let l := s.toList.dropWhile jsWhitespace
  let sgn : ℚ := match l.head? with
    | some c => if c = '-' then -1 else 1
    | none => 1
  let l := match l.head? with
    | some c => if c = '-' || c = '+' then l.tail else l
    | none => l
  let ip := l.takeWhile Char.isDigit
  let l := l.dropWhile Char.isDigit
  let hasDot : Bool := match l.head? with
    | some c => c = '.'
    | none => false
  let fp := if hasDot then l.tail.takeWhile Char.isDigit else []
  let l := if hasDot then l.tail.dropWhile Char.isDigit else l
  if ip.isEmpty && fp.isEmpty then none
  else
    let mant : ℚ := sgn * ((digitsToNat ip : ℚ) + (digitsToNat fp : ℚ) / ((10 : ℚ) ^ fp.length))
    let hasExp : Bool := match l.head? with
      | some c => c = 'e' || c = 'E'
      | none => false
    if hasExp then
      let r := l.tail
      let negExp : Bool := match r.head? with
        | some c => c = '-'
        | none => false
      let r := match r.head? with
        | some c => if c = '-' || c = '+' then r.tail else r
        | none => r
      let ds := r.takeWhile Char.isDigit
      if ds.isEmpty then some mant
      else if negExp then some (mant / ((10 : ℚ) ^ digitsToNat ds))
      else some (mant * ((10 : ℚ) ^ digitsToNat ds))
    else some mant

/-- `str.replace(",", ".")`: replace only the first comma. -/
def replaceFirstCommaDot : List Char → List Char
  | [] => []
  | c :: r => if c = ',' then '.' :: r else c :: replaceFirstCommaDot r

/-- The interpreter's amount cleaning, `App.tsx` lines 210 and 286:
`.replace(/[ ,\s ]/g, "")` — note the class contains the comma, so
every comma (grouping or decimal) is removed and the subsequent
`.replace(",", ".")` can never fire. -/
def stripInterpSeparators (s : String) : List Char :=
  s.toList.filter (fun c => !(c = ' ' || c = ',' || jsWhitespace c))

/-- The importer's amount cleaning, `Settings.tsx` line 90:
`.replace(/[\s ]/g, "")` — only whitespace is removed, commas
survive. -/
def stripImportWhitespace (s : String) : List Char :=
  s.toList.filter (fun c => !jsWhitespace c)

/-- Command-interpreter amount path (`App.tsx` 210-211 / 286-287):
strip `[ ,\s ]`, replace the first comma with a dot, `parseFloat`. -/
def parseAmountInterp (s : String) : Option ℚ :=
  parseFloatQ (String.mk (replaceFirstCommaDot (stripInterpSeparators s)))

/-- Statement-importer amount path (`Settings.tsx` 90-91):
strip `[\s ]`, replace the first comma with a dot, `parseFloat`. -/
def parseAmountImport (s : String) : Option ℚ :=
  parseFloatQ (String.mk (replaceFirstCommaDot (stripImportWhitespace s)))

/-! ## Calendar dates

The app stores transaction dates as `"yyyy-MM-dd"` strings and handles
them through date-fns (`parseISO`, `startOfMonth`, `subMonths`,
`addMonths`, `addDays`, ...) and through the mutable JS `Date`
(`setMonth`).  A calendar date is modelled as a year/month/day triple;
instants within a day never matter to the claims. -/

structure PlainDate where
  year : Int
  month : Nat
  day : Nat
deriving DecidableEq, Repr

/-- Gregorian leap year. -/
def isLeap (y : Int) : Bool :=
  (y % 4 = 0 && y % 100 ≠ 0) || y % 400 = 0

/-- Number of days of month `m` (1-12) of year `y`. -/
def daysInMonth (y : Int) (m : Nat) : Nat :=
  if m = 2 then (if isLeap y then 29 else 28)
  else if m = 4 || m = 6 || m = 9 || m = 11 then 30
  else 31

/-- A date the app can actually hold (what date-fns `isValid` accepts
after a calendar parse). -/
def validDate (d : PlainDate) : Prop :=
  1 ≤ d.month ∧ d.month ≤ 12 ∧ 1 ≤ d.day ∧ d.day ≤ daysInMonth d.year d.month

instance (d : PlainDate) : Decidable (validDate d) := by
  unfold validDate; infer_instance

/-- Zero-based month counter (`12*year + month-1`), the arithmetic
date-fns and `Date.setMonth` perform on months. -/
def monthIdx (d : PlainDate) : Int :=
  12 * d.year + (d.month : Int) - 1

/-- date-fns `startOfMonth`. -/
def startOfMonthD (d : PlainDate) : PlainDate :=
  ⟨d.year, d.month, 1⟩

/-- date-fns `endOfMonth` (the day component; the time 23:59:59 is
immaterial for whole-day comparisons). -/
def endOfMonthD (d : PlainDate) : PlainDate :=
  ⟨d.year, d.month, daysInMonth d.year d.month⟩

/-- `startOfMonth(subMonths(d, 3))` (`App.tsx` line 141): date-fns
`subMonths` clamps the day, but `startOfMonth` discards it anyway, so the
result is day 1 of the month three months earlier. -/
def startOfMonthSub3 (d : PlainDate) : PlainDate :=
  let i : Int := monthIdx d - 3
  ⟨i / 12, (i % 12).toNat + 1, 1⟩

/-- date-fns `addMonths`: month arithmetic with the day clamped to the
target month's length. -/
def addMonthsD (d : PlainDate) (n : Int) : PlainDate :=
  let i : Int := monthIdx d + n
  let y := i / 12
  let m := (i % 12).toNat + 1
  ⟨y, m, min d.day (daysInMonth y m)⟩

/-- JavaScript `Date.prototype.setMonth(getMonth() + n)`: month
arithmetic that keeps the day-of-month and lets it overflow into the
following month (for the day ≤ 31 of any real `Date` a single overflow
step is exact). -/
def jsSetMonthAdd (d : PlainDate) (n : Int) : PlainDate :=
  let i : Int := monthIdx d + n
  let y := i / 12
  let m := (i % 12).toNat + 1
  if d.day ≤ daysInMonth y m then ⟨y, m, d.day⟩
  else if m = 12 then ⟨y + 1, 1, d.day - daysInMonth y m⟩
  else ⟨y, m + 1, d.day - daysInMonth y m⟩

/-- Chronological order on dates (what `>=` on two date-fns dates with
equal time-of-day computes). -/
def dateLe (a b : PlainDate) : Bool :=
  decide (a.year < b.year ∨
    (a.year = b.year ∧ (a.month < b.month ∨ (a.month = b.month ∧ a.day ≤ b.day))))

/-- Days since 1970-01-01 (the civil-calendar day count underlying a JS
timestamp). -/
def toDays (d : PlainDate) : Int :=
  let y : Int := if d.month ≤ 2 then d.year - 1 else d.year
  let era : Int := (if 0 ≤ y then y else y - 399).ediv 400
  let yoe : Nat := (y - era * 400).toNat
  let mp : Nat := (d.month + 9) % 12
  let doy : Nat := (153 * mp + 2) / 5 + d.day - 1
  let doe : Nat := yoe * 365 + yoe / 4 - yoe / 100 + doy
  era * 146097 + (doe : Int) - 719468

/-- Inverse of `toDays`. -/
def ofDays (z0 : Int) : PlainDate :=
  let z : Int := z0 + 719468
  let era : Int := (if 0 ≤ z then z else z - 146096).ediv 146097
  let doe : Nat := (z - era * 146097).toNat
  let yoe : Nat := (doe - doe / 1460 + doe / 36524 - doe / 146096) / 365
  let y : Int := (yoe : Int) + era * 400
  let doy : Nat := doe - (365 * yoe + yoe / 4 - yoe / 100)
  let mp : Nat := (5 * doy + 2) / 153
  let dd : Nat := doy - (153 * mp + 2) / 5 + 1
  let m : Nat := if mp < 10 then mp + 3 else mp - 9
  ⟨if m ≤ 2 then y + 1 else y, m, dd⟩

/-- date-fns `addDays`. -/
def addDaysD (d : PlainDate) (n : Int) : PlainDate :=
  ofDays (toDays d + n)

/-- JS `Date.prototype.getDay`: 0 = Sunday ... 6 = Saturday
(1970-01-01 was a Thursday). -/
def dayOfWeekD (d : PlainDate) : Nat :=
  ((toDays d + 4).emod 7).toNat

/-- date-fns `startOfWeek(d, ... weekStartsOn 1)`: the Monday of the
week of `d`. -/
def startOfWeekMon (d : PlainDate) : PlainDate :=
  addDaysD d (-(((dayOfWeekD d + 6) % 7 : Nat) : Int))

/-- date-fns `nextSaturday`: the first Saturday strictly after `d`. -/
def nextSaturdayD (d : PlainDate) : PlainDate :=
  let delta := (13 - dayOfWeekD d) % 7
  addDaysD d (if delta = 0 then 7 else (delta : Int))

/-- date-fns `previousTuesday`: the last Tuesday strictly before `d`. -/
def previousTuesdayD (d : PlainDate) : PlainDate :=
  let delta := (dayOfWeekD d + 5) % 7
  addDaysD d (-(if delta = 0 then 7 else (delta : Int)))

/-- Is every character of `l` a decimal digit (and `l` nonempty)? -/
def allDigits (l : List Char) : Bool :=
  !l.isEmpty && l.all Char.isDigit

/-- date-fns `parseISO` restricted to the `"yyyy-MM-dd"` dates the app
produces, together with the `isValid` check the code performs on the
result: calendar-invalid strings yield `none`. -/
def parseISODate (s : String) : Option PlainDate :=
  match s.splitOn "-" with
  | [ys, ms, ds] =>
    if allDigits ys.toList && allDigits ms.toList && allDigits ds.toList then
      let y : Int := digitsToNat ys.toList
      let m := digitsToNat ms.toList
      let d := digitsToNat ds.toList
      if 1 ≤ m ∧ m ≤ 12 ∧ 1 ≤ d ∧ d ≤ daysInMonth y m then some ⟨y, m, d⟩
      else none
    else none
  | _ => none

/-- Left-pad a numeral with zeros to width 2. -/
def pad2 (n : Nat) : String :=
  if n < 10 then "0" ++ toString n else toString n

/-- date-fns `format(d, "yyyy-MM-dd")` (for the app's CE years). -/
def formatISO (d : PlainDate) : String :=
  toString d.year ++ "-" ++ pad2 d.month ++ "-" ++ pad2 d.day

/-! ## Domain model (`src/types.ts`) -/

/-- `Transaction` of `types.ts`: amount positive for income, negative for
expense. -/
structure Transaction where
  id : String
  date : String
  description : String
  amount : ℚ
  category : String
deriving DecidableEq, Repr

/-- `Omit<Transaction, "id">`: what the importer emits before the app
assigns ids. -/
structure TxnNoId where
  date : String
  description : String
  amount : ℚ
  category : String
deriving DecidableEq, Repr

/-- `Goal` of `types.ts`.  `estimatedCompletionDate` is written by the
goal reactor as an ISO instant whose calendar date is the part the app
ever reads; it is modelled as that date. -/
structure Goal where
  id : String
  name : String
  targetAmount : ℚ
  currentAmount : ℚ
  deadline : Option String
  estimatedCompletionDate : Option PlainDate
deriving DecidableEq, Repr

/-- The slice of `App`'s state the claims are about (`predictedIncome`
and the chat history are carried unchanged by everything modelled
here). -/
structure AppState where
  transactions : List Transaction
  goals : List Goal
deriving DecidableEq, Repr

/-! ## App-level handlers (`App.tsx` 159-188) -/

/-- `handleEditTransaction` (`App.tsx` 182-184): replace the transaction
with the same id, keep every other entry. -/
def handleEditTransaction (updatedTransaction : Transaction)
    (prev : List Transaction) : List Transaction :=
  prev.map (fun t => if t.id = updatedTransaction.id then updatedTransaction else t)

/-- The `importedTransactions.map(t => ({ ...t, id: uuidv4() }))` of
`handleImportTransactions`, with the uuid generator's output stream
passed in as `genId` (call number to id). -/
def assignIds (genId : Nat → String) : Nat → List TxnNoId → List Transaction
  | _, [] => []
  | i, t :: ts =>
    ⟨genId i, t.date, t.description, t.amount, t.category⟩ :: assignIds genId (i + 1) ts

/-- `handleImportTransactions` (`App.tsx` 159-162): give each imported
row a fresh id and append them to the previous list. -/
def handleImportTransactions (genId : Nat → String)
    (importedTransactions : List TxnNoId) (prev : List Transaction) :
    List Transaction :=
  prev ++ assignIds genId 0 importedTransactions

/-- `handleAddGoal` (`App.tsx` 164-168): append with `currentAmount = 0`
and a fresh id. -/
def handleAddGoal (goalId : String) (name : String) (targetAmount : ℚ)
    (deadline : Option String) (prev : List Goal) : List Goal :=
  prev ++ [⟨goalId, name, targetAmount, 0, deadline, none⟩]

/-! ## Statement importer (`Settings.tsx` 78-108) -/

/-- One parsed CSV record as PapaParse hands it to the row loop: the four
named columns the code reads, `none` when the column is absent. -/
structure CsvRow where
  datum : Option String
  popis : Option String
  castka : Option String
  mena : Option String
deriving DecidableEq, Repr

/-- JS truthiness of a possibly-missing string field (the `date &&
description && amountStr` guard): present and non-empty. -/
def truthy : Option String → Bool
  | some s => s ≠ ""
  | none => false

/-- The `date.split(".")` / template-literal rewrite of
`Settings.tsx` 87-88; a missing index interpolates as `"undefined"`,
exactly as the JS template literal would. -/
def rewriteDate (s : String) : String :=
  let parts := s.splitOn "."
  parts.getD 2 "undefined" ++ "-" ++ parts.getD 1 "undefined" ++ "-" ++
    parts.getD 0 "undefined"

/-- The body of the row loop (`Settings.tsx` 80-105): `some` a normalized
transaction candidate when the row is accepted, `none` when the row is
skipped (each skip executes exactly one `console.warn`). -/
def processRow (selectedCurrency : String) (row : CsvRow) : Option TxnNoId :=
  if truthy row.datum = true ∧ truthy row.popis = true ∧ truthy row.castka = true ∧
      row.mena = some selectedCurrency then
    match parseAmountImport (row.castka.getD "") with
    | some amount =>
      some ⟨rewriteDate (row.datum.getD ""), row.popis.getD "", amount, "Uncategorized"⟩
    | none => none
  else none

/-- The whole `results.data.forEach` loop: accepted rows in input order
plus the number of skipped rows (the count of `console.warn`
executions). -/
def importRows (selectedCurrency : String) (rows : List CsvRow) :
    List TxnNoId × Nat :=
  rows.foldl
    (fun acc row =>
      match processRow selectedCurrency row with
      | some t => (acc.1 ++ [t], acc.2)
      | none => (acc.1, acc.2 + 1))
    ([], 0)

/-! ## Goal projection engine (`App.tsx` 135-157) -/

/-- The trailing filter of `App.tsx` 142: transactions whose parsed date
is valid and not before `startOfMonth(subMonths(now, 3))`.  There is no
upper bound. -/
def inRecentWindow (now : PlainDate) (t : Transaction) : Bool :=
  match parseISODate t.date with
  | some d => dateLe (startOfMonthSub3 now) d
  | none => false

/-- `averageMonthlySavings` of `App.tsx` 141-145: recent income plus
recent (negative) expenses, divided by 3. -/
def averageMonthlySavings (transactions : List Transaction) (now : PlainDate) : ℚ :=
  let recentTransactions := transactions.filter (inRecentWindow now)
  let totalRecentIncome :=
    ((recentTransactions.filter (fun t => 0 < t.amount)).map Transaction.amount).sum
  let totalRecentExpenses :=
    ((recentTransactions.filter (fun t => t.amount < 0)).map Transaction.amount).sum
  (totalRecentIncome + totalRecentExpenses) / 3

/-- `Math.ceil` on an exact rational. -/
def ceilQ (q : ℚ) : Int :=
  if q.den = 1 then q.num
  else q.num / q.den + (if 0 < q.num then 1 else 0)

/-- The per-goal body of the reactor's `goals.map` (`App.tsx` 136-152). -/
def projectGoal (transactions : List Transaction) (now : PlainDate)
    (goal : Goal) : Goal :=
  let remainingAmount : ℚ := max 0 (goal.targetAmount - goal.currentAmount)
  if remainingAmount = 0 then
    { goal with estimatedCompletionDate := some now }
  else
    let avg := averageMonthlySavings transactions now
    if avg ≤ 0 then { goal with estimatedCompletionDate := none }
    else
      let monthsNeeded := ceilQ (remainingAmount / avg)
      { goal with estimatedCompletionDate := some (addMonthsD now monthsNeeded) }

/-- The reactor's `updatedGoals` (`App.tsx` 136-152). -/
def projectGoals (goals : List Goal) (transactions : List Transaction)
    (now : PlainDate) : List Goal :=
  goals.map (projectGoal transactions now)

/-- The whole reactor effect (`App.tsx` 135-157) as a state transform:
only the goal list is (conditionally) rewritten; when the recomputed list
is structurally equal the `setGoals` is skipped, which leaves the same
state either way. -/
def goalReactorStep (now : PlainDate) (s : AppState) : AppState :=
  { s with goals := projectGoals s.goals s.transactions now }

/-- The preserved fields of a goal (everything except the derived
`estimatedCompletionDate`). -/
def goalFrame (g : Goal) : String × String × ℚ × ℚ × Option String :=
  (g.id, g.name, g.targetAmount, g.currentAmount, g.deadline)

/-- Modelled from the claim's words (C3), for comparison with
`averageMonthlySavings`: the same sums but taken over the three full
calendar months ending the month before `now`, i.e. with the upper bound
`date < startOfMonth(now)` that the claim asserts. -/
def specAvgTrailing3 (transactions : List Transaction) (now : PlainDate) : ℚ :=
  let inWindow : Transaction → Bool := fun t =>
    match parseISODate t.date with
    | some d => dateLe (startOfMonthSub3 now) d && !dateLe (startOfMonthD now) d
    | none => false
  let w := transactions.filter inWindow
  (((w.filter (fun t => 0 < t.amount)).map Transaction.amount).sum +
    ((w.filter (fun t => t.amount < 0)).map Transaction.amount).sum) / 3

/-! ## Command interpreter (`App.tsx` 191-341)

The regex matches of `handleAiCommand` whose capture the code consumes
are embedded as deterministic scans with JavaScript's leftmost-match,
ordered-alternation, lazy-quantifier semantics.  The two matches whose
full generality the claims never exercise (the transaction description
and the trailing date phrase) and the external date-fns/`Intl`
collaborators are passed in as parameters. -/

/-- The four intents of the spec's `ParsedCommand`. -/
inductive Intent where
  | createGoal
  | querySpending
  | addTransaction
  | unknown
deriving DecidableEq, Repr

/-- The keyword dispatch of `handleAiCommand` (`App.tsx` 204, 239, 280,
334), first match wins. -/
def classify (command : String) : Intent :=
  let lc := jsToLower command
  if containsStr lc "create goal" || containsStr lc "add goal" then .createGoal
  else if containsStr lc "how much" &&
      (containsStr lc "spend" || containsStr lc "spent") then .querySpending
  else if containsStr lc "add expense" || containsStr lc "add income" ||
      containsStr lc "spent" || containsStr lc "received" then .addTransaction
  else .unknown

/-- The fixed fallback response of the `else` branch (`App.tsx` 335). -/
def capabilitySummary : String :=
  "Sorry, I can currently help with adding goals (e.g., 'add goal Car for 100k by 2026-12-31'), adding transactions (e.g., 'add expense 500 for groceries tomorrow'), or analyzing spending (e.g., 'how much did I spend on fuel last month?')."

/-- Does `l` start with one of the literal patterns? -/
def startsWithAny (l : List Char) (pats : List (List Char)) : Bool :=
  pats.any (startsWithL l)

/-- The lazy capture `(.*?)` of the goal-name regex: everything up to the
first position where one of the terminators
`" for "`, `" with "`, `" costing "`, `" of "`, `" target "`,
`" deadline"` begins, or the end of the string (the regex's `$`
alternative). -/
def captureUntilTerm : List Char → List Char
  | [] => []
  | c :: cs =>
    if startsWithAny (c :: cs)
        [" for ".toList, " with ".toList, " costing ".toList, " of ".toList,
          " target ".toList, " deadline".toList] then []
    else c :: captureUntilTerm cs

/-- At one position, the `(?:goal|for|to buy) ` head of the goal-name
regex (`App.tsx` 205), alternatives in source order; returns the text
after the keyword and its following space. -/
def nameKeywordAt (l : List Char) : Option (List Char) :=
  if startsWithL l "goal ".toList then some (l.drop 5)
  else if startsWithL l "for ".toList then some (l.drop 4)
  else if startsWithL l "to buy ".toList then some (l.drop 7)
  else none

/-- `lowerCommand.match(/(?:goal|for|to buy) (.*?)(?: for | with | costing | of | target | deadline|$)/i)`,
capture group 1: the leftmost position where a keyword-plus-space
matches wins (the rest of the pattern can always complete there). -/
def goalNameScan : List Char → Option (List Char)
  | [] => none
  | c :: cs =>
    match nameKeywordAt (c :: cs) with
    | some rest => some (captureUntilTerm rest)
    | none => goalNameScan cs

/-- String-level wrapper for `goalNameScan`. -/
def extractGoalName (lc : String) : Option String :=
  (goalNameScan lc.toList).map String.mk

/-- The separator class `[ ,\s]` (and `[ , \s]`, identical because
JS `\s` contains U+00A0) of the amount regexes. -/
def isAmtSep (c : Char) : Bool :=
  c = ' ' || c = ',' || jsWhitespace c

/-- Greedy `\d{1,n}`: up to `n` leading digits. -/
def takeDigitsUpTo : Nat → List Char → List Char × List Char
  | 0, l => ([], l)
  | _, [] => ([], [])
  | n + 1, c :: cs =>
    if c.isDigit then
      let p := takeDigitsUpTo n cs
      (c :: p.1, p.2)
    else ([], c :: cs)

/-- Greedy `(?:[ ,\s]\d{3})*`: groups of a separator plus exactly three
digits. -/
def groupReps : List Char → List Char × List Char
  | c :: d1 :: d2 :: d3 :: rest =>
    if isAmtSep c && d1.isDigit && d2.isDigit && d3.isDigit then
      let p := groupReps rest
      (c :: d1 :: d2 :: d3 :: p.1, p.2)
    else ([], c :: d1 :: d2 :: d3 :: rest)
  | l => ([], l)

/-- Greedy optional `(?:[.,]\d+)?`. -/
def decimalPart : List Char → List Char
  | c :: d :: rest =>
    if (c = '.' || c = ',') && d.isDigit then c :: d :: rest.takeWhile Char.isDigit
    else []
  | _ => []

/-- The amount regex
`/(\d{1,3}(?:[ ,\s]\d{3})*(?:[.,]\d+)?|\d+(?:[.,]\d+)?)/` at one
position.  Wherever a digit starts, the first alternative already
matches (its tail quantifiers may be empty), so the second alternative
is unreachable and the capture is: up to three digits, then
separator-plus-three-digit groups, then an optional decimal part. -/
def amtMatchAt (l : List Char) : Option (List Char) :=
  match l.head? with
  | some c =>
    if c.isDigit then
      let p1 := takeDigitsUpTo 3 l
      let p2 := groupReps p1.2
      some (p1.1 ++ p2.1 ++ decimalPart p2.2)
    else none
  | none => none

/-- Leftmost match of the amount regex (capture group 1). -/
def amountScan : List Char → Option (List Char)
  | [] => none
  | c :: cs =>
    match amtMatchAt (c :: cs) with
    | some cap => some cap
    | none => amountScan cs

/-- String-level wrapper for `amountScan` (`App.tsx` 206 and 282). -/
def extractAmount (lc : String) : Option String :=
  (amountScan lc.toList).map String.mk

/-- `lowerCommand.match(/(?:by|deadline) (.*?)(?:$)/i)`, capture
group 1: everything after the first `"by "` or `"deadline "`; the only
terminator is `$`, so the lazy capture extends to the end. -/
def deadlineScan : List Char → Option (List Char)
  | [] => none
  | c :: cs =>
    if startsWithL (c :: cs) "by ".toList then some (cs.drop 2)
    else if startsWithL (c :: cs) "deadline ".toList then some (cs.drop 8)
    else deadlineScan cs

/-- String-level wrapper for `deadlineScan` (`App.tsx` 207). -/
def extractDeadlineStr (lc : String) : Option String :=
  (deadlineScan lc.toList).map String.mk

/-- The lazy tail of the spending-keyword regex: strip the unique
matching alternative of `(?: last month| this month|\?)?` anchored at
`$` (at most one of the three can be a suffix). -/
def stripQuerySuffix (l : List Char) : List Char :=
  if startsWithL l.reverse " last month".toList.reverse then l.take (l.length - 11)
  else if startsWithL l.reverse " this month".toList.reverse then l.take (l.length - 11)
  else if startsWithL l.reverse "?".toList then l.take (l.length - 1)
  else l

/-- `lowerCommand.match(/(?:on|for) (.*?)(?: last month| this month|\?)?$/i)`,
capture group 1: from the first `"on "` or `"for "` to the end, minus
the optional suffix. -/
def keywordScan : List Char → Option (List Char)
  | [] => none
  | c :: cs =>
    if startsWithL (c :: cs) "on ".toList then some (stripQuerySuffix (cs.drop 2))
    else if startsWithL (c :: cs) "for ".toList then some (stripQuerySuffix (cs.drop 3))
    else keywordScan cs

/-- String-level wrapper for `keywordScan` (`App.tsx` 242-243), with the
source's `.trim()` applied. -/
def extractQueryKeyword (lc : String) : Option String :=
  (keywordScan lc.toList).map (fun l => trimJs (String.mk l))

/-- The spending query's target month anchor (`App.tsx` 245-250): the
reference date itself, or the reference date with its month decremented
by JavaScript `setMonth` when the text contains "last month" ("this
month" and the default both keep the current date). -/
def queryTargetDate (lc : String) (now : PlainDate) : PlainDate :=
  if containsStr lc "last month" then jsSetMonthAdd now (-1) else now

/-- The keyword test inside the spending loop (`App.tsx` 261-263): no
keyword (or the falsy empty capture) accepts everything, otherwise a
truthy category or description must contain the keyword
(case-insensitive: the keyword is already lowercase). -/
def keywordOk (keyword : Option String) (t : Transaction) : Bool :=
  match keyword with
  | none => true
  | some k =>
    if k = "" then true
    else
      (t.category ≠ "" && containsStr (jsToLower t.category) k) ||
      (t.description ≠ "" && containsStr (jsToLower t.description) k)

/-- The `transactions.forEach` accumulation of `App.tsx` 255-268:
(`totalSpent`, `matchingTransactions`). -/
def querySpendAccum (transactions : List Transaction) (targetDate : PlainDate)
    (keyword : Option String) : ℚ × Nat :=
  let monthStart := startOfMonthD targetDate
  let monthEnd := endOfMonthD targetDate
  transactions.foldl
    (fun acc t =>
      match parseISODate t.date with
      | some d =>
        if dateLe monthStart d = true ∧ dateLe d monthEnd = true ∧ t.amount < 0 ∧
            keywordOk keyword t = true then
          (acc.1 + t.amount, acc.2 + 1)
        else acc
      | none => acc)
    (0, 0)

/-- External collaborators of `handleAiCommand` that are plain library
calls: the two regex captures the claims never exercise in general
(transaction description, trailing date phrase), date-fns
`parse(s, "P", now)` (as `none` when invalid; `parseDeadline` also
includes the `format(parsedDeadline, "yyyy-MM-dd")` on success), and the
`Intl`/date-fns formatters used only to compose response text. -/
structure Collab where
  descMatchCapture : String → Option String
  dateMatchCapture : String → Option String
  parseDeadline : String → Option String
  parseDateP : String → Option PlainDate
  fmtCurrency : ℚ → String
  fmtPPP : String → String
  fmtMMMd : PlainDate → String

/-- The fresh uuids `handleAiCommand` would draw (`uuidv4()` for a new
goal or transaction). -/
structure IdSupply where
  goalId : String
  txnId : String

/-- The date-phrase resolution chain of `App.tsx` 292-314.  Note the
source order: `startsWith("next week")` is tested before
`=== "next weekend"`, so "next weekend" resolves through the
next-week branch (and likewise for "last weekend"/"last week"). -/
def resolveDateToken (c : Collab) (now : PlainDate) (dateStr : String) : PlainDate :=
  if dateStr = "today" then now
  else if dateStr = "tomorrow" then addDaysD now 1
  else if dateStr = "yesterday" then addDaysD now (-1)
  else if startsWithL dateStr.toList "next week".toList then
    addDaysD (startOfWeekMon (addDaysD now 7)) 4
  else if startsWithL dateStr.toList "last week".toList then
    addDaysD (startOfWeekMon (addDaysD now (-7))) 4
  else if dateStr = "next weekend" then nextSaturdayD now
  else if dateStr = "last weekend" then previousTuesdayD (startOfWeekMon now)
  else
    match c.parseDateP dateStr with
    | some parsed => parsed
    | none => now

/-- Branch 1 of `handleAiCommand` (`App.tsx` 204-237): goal creation.
`lc` is the already-lowercased command. -/
def goalCreationBranch (c : Collab) (ids : IdSupply) (lc : String)
    (s : AppState) : AppState × String :=
  let goalName := match extractGoalName lc with
    | some cap => let t := trimJs cap; if t = "" then "New Goal" else t
    | none => "New Goal"
  -- `goalAmountStr ? parseFloat(goalAmountStr) : 0`; an unparsable
  -- capture gives NaN, which fails the `> 0` test exactly as 0 does.
  let goalAmount : ℚ := match extractAmount lc with
    | some cap => (parseAmountInterp cap).getD 0
    | none => 0
  let deadline : Option String := match extractDeadlineStr lc with
    | some cap => c.parseDeadline (trimJs cap)
    | none => none
  if 0 < goalAmount ∧ goalName ≠ "New Goal" then
    ({ s with goals := handleAddGoal ids.goalId goalName goalAmount deadline s.goals },
      "OK, I've added the goal \"" ++ goalName ++ "\" for " ++
        c.fmtCurrency goalAmount ++
        (match deadline with
          | some dl => " with a deadline of " ++ c.fmtPPP dl
          | none => "") ++
        ". I'll estimate the completion date.")
  else
    (s, "Sorry, I couldn't understand the goal details. Please specify a name and amount, like 'add goal New Car for 100000'. You can optionally add 'by YYYY-MM-DD'.")

/-- Branch 2 of `handleAiCommand` (`App.tsx` 239-278): spending
analysis, a pure read. -/
def spendingQueryBranch (c : Collab) (now : PlainDate) (lc : String)
    (s : AppState) : AppState × String :=
  let lastMonthMatch := containsStr lc "last month"
  let keyword := extractQueryKeyword lc
  let targetDate := queryTargetDate lc now
  let acc := querySpendAccum s.transactions targetDate keyword
  let timeFrame := if lastMonthMatch then "last month" else "this month"
  let response :=
    match keyword with
    | some k =>
      if k ≠ "" then
        if 0 < acc.2 then
          "You spent " ++ c.fmtCurrency |acc.1| ++ " on \"" ++ k ++ "\" " ++
            timeFrame ++ " across " ++ toString acc.2 ++ " transactions."
        else
          "I couldn't find any spending related to \"" ++ k ++ "\" " ++
            timeFrame ++ "."
      else "You spent a total of " ++ c.fmtCurrency |acc.1| ++ " " ++ timeFrame ++ "."
    | none => "You spent a total of " ++ c.fmtCurrency |acc.1| ++ " " ++ timeFrame ++ "."
  (s, response)

/-- Branch 3 of `handleAiCommand` (`App.tsx` 280-332): add a
transaction. -/
def addTransactionBranch (c : Collab) (now : PlainDate) (ids : IdSupply)
    (lc : String) (s : AppState) : AppState × String :=
  let isExpense := containsStr lc "expense" || containsStr lc "spent"
  let amountVal : ℚ := match extractAmount lc with
    | some cap => (parseAmountInterp cap).getD 0
    | none => 0
  let description := match c.descMatchCapture lc with
    | some cap => let t := trimJs cap; if t = "" then "Transaction" else t
    | none => "Transaction"
  let transactionDate := match c.dateMatchCapture lc with
    | some ds => resolveDateToken c now (jsToLower ds)
    | none => now
  if 0 < amountVal then
    let finalAmount := if isExpense then -amountVal else amountVal
    let newTransaction : Transaction :=
      ⟨ids.txnId, formatISO transactionDate, description, finalAmount, "Uncategorized"⟩
    -- source comment: "Use handleEditTransaction to add/update (it handles both)"
    ({ s with transactions := handleEditTransaction newTransaction s.transactions },
      "OK, added " ++ (if isExpense then "expense" else "income") ++ " of " ++
        c.fmtCurrency |finalAmount| ++ " for \"" ++ description ++ "\" on " ++
        c.fmtMMMd transactionDate ++ ".")
  else
    (s, "Sorry, I couldn't understand the amount or description for the transaction. Please try again, like 'add expense 500 for groceries tomorrow'.")

/-- `handleAiCommand` (`App.tsx` 191-341) as a pure transition on the
domain state, returning the new state and the response text.  The chat
history bookkeeping (one user turn appended before, one assistant turn
after) and the artificial delay carry no domain information and are
omitted. -/
def handleAiCommand (c : Collab) (now : PlainDate) (ids : IdSupply)
    (command : String) (s : AppState) : AppState × String :=
  let lc := jsToLower command
  if containsStr lc "create goal" || containsStr lc "add goal" then
    goalCreationBranch c ids lc s
  else if containsStr lc "how much" &&
      (containsStr lc "spend" || containsStr lc "spent") then
    spendingQueryBranch c now lc s
  else if containsStr lc "add expense" || containsStr lc "add income" ||
      containsStr lc "spent" || containsStr lc "received" then
    addTransactionBranch c now ids lc s
  else
    (s, capabilitySummary)

/-! ## Auxiliary definitions for the statements below -/

/-- Forget the id of a transaction (recovers the importer's
`Omit<Transaction, "id">` view). -/
def stripId (t : Transaction) : TxnNoId :=
  ⟨t.date, t.description, t.amount, t.category⟩

/-- A concrete instantiation of the external collaborators, used to
run the interpreter on closed inputs: the description/date captures the
scenario commands produce, trivial locale-date parsing and plain
formatters. -/
def collabW : Collab where
  descMatchCapture := fun _ => some "groceries"
  dateMatchCapture := fun _ => some "tomorrow"
  parseDeadline := fun _ => none
  parseDateP := fun _ => none
  fmtCurrency := fun q => toString q.num
  fmtPPP := fun s => s
  fmtMMMd := fun d => formatISO d

/-- A concrete uuid supply for closed runs. -/
def idsW : IdSupply :=
  ⟨"gid-1", "tid-1"⟩

/-- Modelled from the amended claim C3: membership in the projection
window stated by month counters - every transaction whose month is at
most three months before the reference month or later, with no upper
bound. -/
def inWindowNoUpperBound (now : PlainDate) (t : Transaction) : Bool :=
  match parseISODate t.date with
  | some d => monthIdx now - 3 ≤ monthIdx d
  | none => false

/-- The savings average with the window stated through
`inWindowNoUpperBound`, for comparison with `averageMonthlySavings`. -/
def avgNoUpperBound (transactions : List Transaction) (now : PlainDate) : ℚ :=
  let w := transactions.filter (inWindowNoUpperBound now)
  (((w.filter (fun t => 0 < t.amount)).map Transaction.amount).sum +
    ((w.filter (fun t => t.amount < 0)).map Transaction.amount).sum) / 3

/-- The row test of the spending query as one predicate: parsable date
inside the target month, negative amount, keyword accepted. -/
def querySpendPred (targetDate : PlainDate) (keyword : Option String)
    (t : Transaction) : Bool :=
  match parseISODate t.date with
  | some d =>
    decide (dateLe (startOfMonthD targetDate) d = true ∧
      dateLe d (endOfMonthD targetDate) = true ∧ t.amount < 0 ∧
      keywordOk keyword t = true)
  | none => false

/-- The previous calendar month of a date, as a year/month pair. -/
def prevCalMonth (now : PlainDate) : Int × Nat :=
  ((monthIdx now - 1) / 12, ((monthIdx now - 1) % 12).toNat + 1)

/-- Two expenses used to exercise the spending query: one in February
2025, one in March 2025. -/
def ledgerC5 : List Transaction :=
  [⟨"a", "2025-02-15", "fuel", -100, "Uncategorized"⟩,
    ⟨"b", "2025-03-05", "fuel", -40, "Uncategorized"⟩]

/-! ## Supporting lemmas -/

theorem projectGoal_preserves_frame (T : List Transaction) (now : PlainDate) (g : Goal) :
    goalFrame (projectGoal T now g) = goalFrame g := by
  unfold projectGoal goalFrame
  by_cases h1 : max 0 (g.targetAmount - g.currentAmount) = 0 <;>
    by_cases h2 : averageMonthlySavings T now ≤ 0 <;>
      simp [h1, h2]

theorem projectGoal_idem (T : List Transaction) (now : PlainDate) (g : Goal) :
    projectGoal T now (projectGoal T now g) = projectGoal T now g := by
  unfold projectGoal
  by_cases h1 : max 0 (g.targetAmount - g.currentAmount) = 0 <;>
    by_cases h2 : averageMonthlySavings T now ≤ 0 <;>
      simp [h1, h2]

theorem assignIds_stripId (genId : Nat → String) (i : Nat) (l : List TxnNoId) :
    (assignIds genId i l).map stripId = l := by
  induction l generalizing i with
  | nil => rfl
  | cons t ts ih => simp [assignIds, stripId, ih]

theorem assignIds_ids (genId : Nat → String) (i : Nat) (l : List TxnNoId) :
    (assignIds genId i l).map Transaction.id =
      (List.range l.length).map (fun k => genId (i + k)) := by
  induction l generalizing i with
  | nil => rfl
  | cons t ts ih =>
    simp [assignIds, List.range_succ_eq_map, ih, List.map_map, Function.comp]
    intro a _
    congr 1
    omega

theorem assignIds_length (genId : Nat → String) (i : Nat) (l : List TxnNoId) :
    (assignIds genId i l).length = l.length := by
  induction l generalizing i with
  | nil => rfl
  | cons t ts ih => simp [assignIds, ih]

theorem importRows_foldl (cur : String) (rows : List CsvRow) (acc : List TxnNoId × Nat) :
    rows.foldl
      (fun acc row =>
        match processRow cur row with
        | some t => (acc.1 ++ [t], acc.2)
        | none => (acc.1, acc.2 + 1)) acc
    = (acc.1 ++ rows.filterMap (processRow cur),
        acc.2 + (rows.filter (fun r => (processRow cur r).isNone)).length) := by
  induction rows generalizing acc with
  | nil => simp
  | cons r rs ih =>
    cases h : processRow cur r <;>
      simp [List.foldl_cons, h, ih, List.filterMap_cons, List.filter_cons]
    omega

theorem importRows_spec (cur : String) (rows : List CsvRow) :
    importRows cur rows
      = (rows.filterMap (processRow cur),
          (rows.filter (fun r => (processRow cur r).isNone)).length) := by
  unfold importRows
  rw [importRows_foldl]
  simp

theorem handleEdit_id_not_found (t : Transaction) (prev : List Transaction)
    (h : t.id ∉ prev.map Transaction.id) : handleEditTransaction t prev = prev := by
  unfold handleEditTransaction
  induction prev with
  | nil => rfl
  | cons p ps ih =>
    simp only [List.map_cons, List.mem_cons] at h
    push_neg at h
    simp only [List.map_cons, List.cons.injEq]
    refine ⟨?_, ih h.2⟩
    rw [if_neg (fun hq => h.1 hq.symm)]

theorem filter_isNone_length_add (f : CsvRow → Option TxnNoId) (l : List CsvRow) :
    (l.filter (fun a => (f a).isNone)).length + (l.filterMap f).length = l.length := by
  induction l with
  | nil => rfl
  | cons a as ih =>
    cases h : f a <;>
      simp [List.filter_cons, List.filterMap_cons, h, ← ih] <;> omega

theorem parseISODate_bounds (s : String) (d : PlainDate)
    (h : parseISODate s = some d) :
    1 ≤ d.month ∧ d.month ≤ 12 ∧ 1 ≤ d.day := by
  unfold parseISODate at h
  split at h
  · dsimp only at h
    split_ifs at h with h1 h2
    injection h with h'
    subst h'
    exact ⟨h2.1, h2.2.1, h2.2.2.1⟩
  · exact absurd h (by simp)

theorem inRecentWindow_eq (now : PlainDate) (t : Transaction) :
    inRecentWindow now t = inWindowNoUpperBound now t := by
  unfold inRecentWindow inWindowNoUpperBound
  cases h : parseISODate t.date with
  | none => rfl
  | some d =>
    obtain ⟨hm1, hm2, hd⟩ := parseISODate_bounds t.date d h
    unfold dateLe startOfMonthSub3 monthIdx
    dsimp only
    rw [Bool.eq_iff_iff, decide_eq_true_iff, decide_eq_true_iff]
    omega

theorem averageMonthlySavings_eq_noUpper (T : List Transaction) (now : PlainDate) :
    averageMonthlySavings T now = avgNoUpperBound T now := by
  unfold averageMonthlySavings avgNoUpperBound
  rw [List.filter_congr (fun t _ => inRecentWindow_eq now t)]

theorem querySpendAccum_foldl (targetDate : PlainDate) (keyword : Option String)
    (T : List Transaction) (acc : ℚ × Nat) :
    T.foldl
      (fun acc t =>
        match parseISODate t.date with
        | some d =>
          if dateLe (startOfMonthD targetDate) d = true ∧
              dateLe d (endOfMonthD targetDate) = true ∧ t.amount < 0 ∧
              keywordOk keyword t = true then
            (acc.1 + t.amount, acc.2 + 1)
          else acc
        | none => acc) acc
    = (acc.1 + ((T.filter (querySpendPred targetDate keyword)).map Transaction.amount).sum,
        acc.2 + (T.filter (querySpendPred targetDate keyword)).length) := by
  induction T generalizing acc with
  | nil => simp
  | cons t ts ih =>
    simp only [List.foldl_cons, List.filter_cons]
    have hpred : querySpendPred targetDate keyword t
        = match parseISODate t.date with
          | some d => decide (dateLe (startOfMonthD targetDate) d = true ∧
              dateLe d (endOfMonthD targetDate) = true ∧ t.amount < 0 ∧
              keywordOk keyword t = true)
          | none => false := rfl
    cases h : parseISODate t.date with
    | none =>
      rw [ih]
      simp [hpred, h]
    | some d =>
      by_cases hc : dateLe (startOfMonthD targetDate) d = true ∧
          dateLe d (endOfMonthD targetDate) = true ∧ t.amount < 0 ∧
          keywordOk keyword t = true
      · rw [ih]
        simp [hpred, h, hc, add_assoc]
        omega
      · rw [ih]
        simp [hpred, h, hc]

theorem querySpendAccum_eq (T : List Transaction) (targetDate : PlainDate)
    (keyword : Option String) :
    querySpendAccum T targetDate keyword
      = (((T.filter (querySpendPred targetDate keyword)).map Transaction.amount).sum,
          (T.filter (querySpendPred targetDate keyword)).length) := by
  unfold querySpendAccum
  rw [querySpendAccum_foldl]
  simp

/-! ## Claim theorems -/

/-- Claim C8: the goal projection is idempotent - re-running
`projectGoals` on its own output with the same transactions and the same
reference instant returns the output unchanged. -/
theorem projectGoals_idempotent (G : List Goal) (T : List Transaction)
    (now : PlainDate) :
    projectGoals (projectGoals G T now) T now = projectGoals G T now := by
  unfold projectGoals
  rw [List.map_map]
  exact List.map_congr_left (fun g _ => projectGoal_idem T now g)

/-- Claim C9: the projection recomputation changes at most
`estimatedCompletionDate` - id, name, targetAmount, currentAmount and
deadline survive unchanged, the goal list keeps its length and order,
and the reactor leaves the transaction list untouched. -/
theorem projection_frame (G : List Goal) (T : List Transaction)
    (now : PlainDate) (s : AppState) :
    (projectGoals G T now).map goalFrame = G.map goalFrame ∧
    (projectGoals G T now).length = G.length ∧
    (goalReactorStep now s).transactions = s.transactions := by
  refine ⟨?_, by simp [projectGoals], rfl⟩
  unfold projectGoals
  rw [List.map_map]
  exact List.map_congr_left (fun g _ => projectGoal_preserves_frame T now g)

/-- Claim C10: importing a statement appends the accepted rows, in input
order and with fresh ids drawn from the uuid stream, after the untouched
prior ledger. -/
theorem import_appends_preserving (genId : Nat → String)
    (imported : List TxnNoId) (prev : List Transaction) :
    (handleImportTransactions genId imported prev).take prev.length = prev ∧
    ((handleImportTransactions genId imported prev).drop prev.length).map stripId
      = imported ∧
    ((handleImportTransactions genId imported prev).drop prev.length).map Transaction.id
      = (List.range imported.length).map genId ∧
    (handleImportTransactions genId imported prev).length
      = prev.length + imported.length := by
  unfold handleImportTransactions
  refine ⟨List.take_left prev _, ?_, ?_, ?_⟩
  · rw [List.drop_left]
    exact assignIds_stripId genId 0 imported
  · rw [List.drop_left, assignIds_ids]
    simp
  · simp [assignIds_length]

/-- Claim C7: a CSV row is accepted iff its four named fields are
present (truthy), its currency equals the selected target currency and
its amount parses; every other row is skipped - it contributes nothing
to the accepted output, raises no error, and bumps the skip count by
one, so skipped plus accepted is the row total. -/
theorem importRows_acceptance (cur : String) (hc : cur ≠ "")
    (rows : List CsvRow) :
    (importRows cur rows).1 = rows.filterMap (processRow cur) ∧
    (importRows cur rows).2
      = (rows.filter (fun r => (processRow cur r).isNone)).length ∧
    (importRows cur rows).2 + (importRows cur rows).1.length = rows.length ∧
    ∀ r : CsvRow, (processRow cur r).isSome = true ↔
      (truthy r.datum = true ∧ truthy r.popis = true ∧ truthy r.castka = true ∧
        truthy r.mena = true ∧ r.mena = some cur ∧
        (parseAmountImport (r.castka.getD "")).isSome = true) := by
  have hm : ∀ r : CsvRow, r.mena = some cur → truthy r.mena = true := by
    intro r h
    rw [h]
    simpa [truthy] using hc
  rw [importRows_spec]
  refine ⟨rfl, rfl, filter_isNone_length_add (processRow cur) rows, ?_⟩
  intro r
  unfold processRow
  split_ifs with h
  · obtain ⟨h1, h2, h3, h4⟩ := h
    have hm4 : truthy r.mena = true := hm r h4
    cases hp : parseAmountImport (r.castka.getD "") with
    | none => simp [hp]
    | some a =>
      simp only [hp, Option.isSome_some, true_iff]
      exact ⟨h1, h2, h3, hm4, h4, by simp [hp]⟩
  · constructor
    · intro hs
      simp at hs
    · rintro ⟨h1, h2, h3, _, h4, _⟩
      exact absurd ⟨h1, h2, h3, h4⟩ h

/-- Witness for C7 at a concrete mismatched row: with target currency
CZK, a EUR row is skipped (counted, not accepted). -/
theorem importRows_acceptance_witness :
    (importRows "CZK" [⟨some "01.02.2025", some "x", some "10", some "EUR"⟩]).1 = [] ∧
    (importRows "CZK" [⟨some "01.02.2025", some "x", some "10", some "EUR"⟩]).2 = 1 := by
  have h := importRows_acceptance "CZK" (by decide)
    [⟨some "01.02.2025", some "x", some "10", some "EUR"⟩]
  exact ⟨h.1.trans (by with_unfolding_all decide),
    h.2.1.trans (by with_unfolding_all decide)⟩

/-- Claim C6: intent classification is first-match-wins in the order
CreateGoal, QuerySpending, AddTransaction, Unknown, with exactly the
keyword tests of the source, and the Unknown intent leaves the state
unchanged and answers with the fixed capability summary. -/
theorem classify_first_match (command : String) :
    (classify command = .createGoal ↔
      (containsStr (jsToLower command) "create goal" ||
        containsStr (jsToLower command) "add goal") = true) ∧
    (classify command = .querySpending ↔
      ((containsStr (jsToLower command) "create goal" ||
          containsStr (jsToLower command) "add goal") = false ∧
        (containsStr (jsToLower command) "how much" &&
          (containsStr (jsToLower command) "spend" ||
            containsStr (jsToLower command) "spent")) = true)) ∧
    (classify command = .addTransaction ↔
      ((containsStr (jsToLower command) "create goal" ||
          containsStr (jsToLower command) "add goal") = false ∧
        (containsStr (jsToLower command) "how much" &&
          (containsStr (jsToLower command) "spend" ||
            containsStr (jsToLower command) "spent")) = false ∧
        (containsStr (jsToLower command) "add expense" ||
          containsStr (jsToLower command) "add income" ||
          containsStr (jsToLower command) "spent" ||
          containsStr (jsToLower command) "received") = true)) ∧
    (classify command = .unknown ↔
      ((containsStr (jsToLower command) "create goal" ||
          containsStr (jsToLower command) "add goal") = false ∧
        (containsStr (jsToLower command) "how much" &&
          (containsStr (jsToLower command) "spend" ||
            containsStr (jsToLower command) "spent")) = false ∧
        (containsStr (jsToLower command) "add expense" ||
          containsStr (jsToLower command) "add income" ||
          containsStr (jsToLower command) "spent" ||
          containsStr (jsToLower command) "received") = false)) ∧
    (classify command = .unknown →
      ∀ (c : Collab) (now : PlainDate) (ids : IdSupply) (s : AppState),
        handleAiCommand c now ids command s = (s, capabilitySummary)) := by
  cases h1 : (containsStr (jsToLower command) "create goal" ||
      containsStr (jsToLower command) "add goal") <;>
  cases h2 : (containsStr (jsToLower command) "how much" &&
      (containsStr (jsToLower command) "spend" ||
        containsStr (jsToLower command) "spent")) <;>
  cases h3 : (containsStr (jsToLower command) "add expense" ||
      containsStr (jsToLower command) "add income" ||
      containsStr (jsToLower command) "spent" ||
      containsStr (jsToLower command) "received") <;>
    simp [classify, handleAiCommand, h1, h2, h3]

/-- Witness for C6 at concrete free text matching no intent: the state
is unchanged and the response is the capability summary. -/
theorem classify_first_match_witness :
    classify "what is the weather" = .unknown ∧
    handleAiCommand collabW ⟨2025, 1, 10⟩ idsW "what is the weather" ⟨[], []⟩
      = (⟨[], []⟩, capabilitySummary) := by
  refine ⟨by with_unfolding_all decide, ?_⟩
  exact (classify_first_match "what is the weather").2.2.2.2
    (by with_unfolding_all decide) collabW ⟨2025, 1, 10⟩ idsW ⟨[], []⟩

/-- Claim C1 (code bug): whenever the interpreter takes the
AddTransaction branch with a fresh uuid, the transaction list after the
call is identical to the one before - the new record is never inserted,
because `handleEditTransaction` only replaces an existing id and never
appends. -/
theorem addTransaction_never_persists (c : Collab) (now : PlainDate)
    (ids : IdSupply) (command : String) (s : AppState)
    (hfresh : ids.txnId ∉ s.transactions.map Transaction.id)
    (hintent : classify command = .addTransaction) :
    (handleAiCommand c now ids command s).1.transactions = s.transactions := by
  have hbranch : ∀ lc, (addTransactionBranch c now ids lc s).1.transactions
      = s.transactions := by
    intro lc
    unfold addTransactionBranch
    dsimp only
    split_ifs <;>
      first
        | rfl
        | exact handleEdit_id_not_found _ _ hfresh
  cases h1 : (containsStr (jsToLower command) "create goal" ||
      containsStr (jsToLower command) "add goal") <;>
  cases h2 : (containsStr (jsToLower command) "how much" &&
      (containsStr (jsToLower command) "spend" ||
        containsStr (jsToLower command) "spent")) <;>
  cases h3 : (containsStr (jsToLower command) "add expense" ||
      containsStr (jsToLower command) "add income" ||
      containsStr (jsToLower command) "spent" ||
      containsStr (jsToLower command) "received") <;>
    simp [classify, h1, h2, h3] at hintent <;>
    simp [handleAiCommand, h1, h2, h3, hbranch]

/-- Witness for C1 at the spec's end-to-end scenario: interpreting
"add expense 500 for groceries tomorrow" against an empty ledger parses
an expense of 500 (the response even confirms it for 2025-01-11) yet
leaves the ledger empty. -/
theorem addTransaction_never_persists_witness :
    classify "add expense 500 for groceries tomorrow" = .addTransaction ∧
    (handleAiCommand collabW ⟨2025, 1, 10⟩ idsW
        "add expense 500 for groceries tomorrow" ⟨[], []⟩).1.transactions = [] ∧
    (handleAiCommand collabW ⟨2025, 1, 10⟩ idsW
        "add expense 500 for groceries tomorrow" ⟨[], []⟩).2
      = "OK, added expense of 500 for \"groceries\" on 2025-01-11." := by
  refine ⟨by with_unfolding_all decide, ?_, by with_unfolding_all decide⟩
  exact addTransaction_never_persists collabW ⟨2025, 1, 10⟩ idsW
    "add expense 500 for groceries tomorrow" ⟨[], []⟩ (by simp)
    (by with_unfolding_all decide)

/-- Claim C4 (code bug): interpreting "add goal New Car for 100000"
against the empty state creates one goal - but with name "new car"
(extracted from the **lowercased** command) and targetAmount 100: the
grouped-thousands regex alternative consumes only the first three digits
of the ungrouped "100000". -/
theorem addGoal_scenario_result :
    (handleAiCommand collabW ⟨2025, 1, 10⟩ idsW "add goal New Car for 100000"
        ⟨[], []⟩).1
      = ⟨[], [⟨"gid-1", "new car", 100, 0, none, none⟩]⟩ ∧
    extractAmount (jsToLower "add goal New Car for 100000") = some "100" ∧
    extractGoalName (jsToLower "add goal New Car for 100000") = some "new car" := by
  refine ⟨?_, ?_, ?_⟩ <;> with_unfolding_all decide

/-- Counterexample to claim C2 as stated: "1 234,50" does not parse to
1234.5 in the interpreter path (every comma is stripped as grouping, so
it parses to 123450), and "1,234.50" does not parse to 1234.5 in the
importer path (the first comma becomes a dot, so `parseFloat` reads
"1.234.50" as 1.234). -/
theorem parseAmount_locale_cex :
    parseAmountInterp "1 234,50" = some 123450 ∧
    parseAmountInterp "1 234,50" ≠ some ((1234.5 : ℚ)) ∧
    parseAmountImport "1,234.50" = some ((1.234 : ℚ)) ∧
    parseAmountImport "1,234.50" ≠ some ((1234.5 : ℚ)) := by
  have h1 : parseAmountInterp "1 234,50" = some 123450 := by with_unfolding_all rfl
  have h2 : parseAmountImport "1,234.50" = some ((1.234 : ℚ)) := by
    with_unfolding_all rfl
  refine ⟨h1, ?_, h2, ?_⟩
  · rw [h1]
    simp only [ne_eq, Option.some.injEq]
    norm_num
  · rw [h2]
    simp only [ne_eq, Option.some.injEq]
    norm_num

/-- Claim C2 (amended): the two amount paths agree on strings free of
commas and whitespace (canonical dot-decimal forms such as "1234.5"),
and on the claim's examples they behave as follows: the interpreter
strips spaces and all commas ("1 234,50" ↦ 123450, "1,234.50" ↦ 1234.5),
the importer strips only whitespace and turns the first comma into a dot
("1 234,50" ↦ 1234.5, "1,234.50" ↦ 1.234). -/
theorem parseAmount_paths_amended :
    (∀ s : String, (∀ ch ∈ s.toList, ch ≠ ',' ∧ jsWhitespace ch = false) →
      parseAmountInterp s = parseAmountImport s) ∧
    parseAmountInterp "1234.5" = some ((1234.5 : ℚ)) ∧
    parseAmountImport "1234.5" = some ((1234.5 : ℚ)) ∧
    parseAmountInterp "1,234.50" = some ((1234.5 : ℚ)) ∧
    parseAmountImport "1 234,50" = some ((1234.5 : ℚ)) ∧
    parseAmountInterp "1 234,50" = some 123450 ∧
    parseAmountImport "1,234.50" = some ((1.234 : ℚ)) := by
  refine ⟨?_, ?_, ?_, ?_, ?_, ?_, ?_⟩
  · intro s h
    unfold parseAmountInterp parseAmountImport
    have hs : stripInterpSeparators s = s.toList := by
      unfold stripInterpSeparators
      apply List.filter_eq_self.mpr
      intro a ha
      obtain ⟨hc, hw⟩ := h a ha
      have hsp : a ≠ ' ' := by
        intro he
        rw [he] at hw
        simp [jsWhitespace] at hw
      simp [hsp, hc, hw]
    have hi : stripImportWhitespace s = s.toList := by
      unfold stripImportWhitespace
      apply List.filter_eq_self.mpr
      intro a ha
      simp [(h a ha).2]
    rw [hs, hi]
  all_goals with_unfolding_all rfl

/-- Witness for C2 (amended) at the canonical dot-decimal form
"7.25". -/
theorem parseAmount_paths_amended_witness :
    parseAmountInterp "7.25" = parseAmountImport "7.25" :=
  parseAmount_paths_amended.1 "7.25" (by decide)

/-- Counterexample to claim C3 as stated: with reference date
2025-01-10 and a single +300 income dated 2025-01-05 (inside the
reference date's own month), the claim's trailing-3-full-months average
is 0 - which per the claim would clear the estimate - yet the code's
average is 100 and the projection sets an estimated completion date. -/
theorem projection_window_cex :
    specAvgTrailing3 [⟨"a", "2025-01-05", "pay", 300, "Uncategorized"⟩]
      ⟨2025, 1, 10⟩ = 0 ∧
    averageMonthlySavings [⟨"a", "2025-01-05", "pay", 300, "Uncategorized"⟩]
      ⟨2025, 1, 10⟩ = 100 ∧
    projectGoals [⟨"g", "G", 100, 0, none, none⟩]
        [⟨"a", "2025-01-05", "pay", 300, "Uncategorized"⟩] ⟨2025, 1, 10⟩
      = [⟨"g", "G", 100, 0, none, some ⟨2025, 2, 10⟩⟩] := by
  refine ⟨?_, ?_, ?_⟩ <;> with_unfolding_all rfl

/-- Claim C3 (amended): the projection window has **no upper bound** -
`averageMonthlySavings` sums every transaction whose month counter is at
least `monthIdx now - 3` (current and future months included) and
divides by 3. -/
theorem averageMonthlySavings_no_upper_bound (T : List Transaction)
    (now : PlainDate) :
    averageMonthlySavings T now = avgNoUpperBound T now :=
  averageMonthlySavings_eq_noUpper T now

/-- Counterexample to claim C5 as stated: at reference date 2025-03-31
the text "last month" resolves via `setMonth` day overflow to
2025-03-03, so the summed month is March - the current month - and the
query totals the March expense (-40), not February's (-100). -/
theorem queryMonth_overflow_cex :
    containsStr (jsToLower "How much did I spend last month") "last month" = true ∧
    queryTargetDate (jsToLower "How much did I spend last month") ⟨2025, 3, 31⟩
      = ⟨2025, 3, 3⟩ ∧
    prevCalMonth ⟨2025, 3, 31⟩ = (2025, 2) ∧
    querySpendAccum ledgerC5
        (queryTargetDate (jsToLower "How much did I spend last month") ⟨2025, 3, 31⟩)
        (extractQueryKeyword (jsToLower "How much did I spend last month"))
      = (-40, 1) ∧
    querySpendAccum ledgerC5 ⟨2025, 2, 28⟩ none = (-100, 1) := by
  refine ⟨?_, ?_, ?_, ?_, ?_⟩ <;> with_unfolding_all rfl

/-- Claim C5 (amended): without "last month" the query month is the
reference date's own month; with "last month" it is the previous
calendar month only when the reference day-of-month fits in that month
(otherwise `setMonth` overflows the day); and the query sums exactly the
negative-amount transactions dated inside the resolved month that pass
the keyword test. -/
theorem querySpending_month_resolution (lc : String) (now : PlainDate)
    (T : List Transaction) (keyword : Option String) :
    (containsStr lc "last month" = false → queryTargetDate lc now = now) ∧
    (containsStr lc "last month" = true →
      now.day ≤ daysInMonth (prevCalMonth now).1 (prevCalMonth now).2 →
      queryTargetDate lc now
        = ⟨(prevCalMonth now).1, (prevCalMonth now).2, now.day⟩) ∧
    querySpendAccum T (queryTargetDate lc now) keyword
      = (((T.filter (querySpendPred (queryTargetDate lc now) keyword)).map
            Transaction.amount).sum,
          (T.filter (querySpendPred (queryTargetDate lc now) keyword)).length) := by
  refine ⟨?_, ?_, querySpendAccum_eq T _ keyword⟩
  · intro h
    simp [queryTargetDate, h]
  · intro h hday
    unfold queryTargetDate jsSetMonthAdd prevCalMonth at *
    simp only [h, if_true]
    rw [show monthIdx now + (-1) = monthIdx now - 1 from by ring]
    rw [if_pos hday]

/-- Witness for C5 (amended): at 2025-02-28 the previous month is
January 2025 (day 28 fits), and text without "last month" keeps the
reference month. -/
theorem querySpending_month_resolution_witness :
    queryTargetDate (jsToLower "How much did I spend last month") ⟨2025, 2, 28⟩
      = ⟨2025, 1, 28⟩ ∧
    queryTargetDate "how much did i spend" ⟨2025, 2, 28⟩ = ⟨2025, 2, 28⟩ := by
  constructor
  · have h := (querySpending_month_resolution
        (jsToLower "How much did I spend last month") ⟨2025, 2, 28⟩ [] none).2.1
      (by decide) (by decide)
    rw [h]
    decide
  · exact (querySpending_month_resolution "how much did i spend" ⟨2025, 2, 28⟩
      [] none).1 (by decide)

end Bdget
